import Mathlib

/-!
Verification of the pages-tree webpack plugin (route collection,
normalization and artifact generation).

The repository contains evolving variants of one plugin class
`PagesTreeWebpackPlugin`.  The variant in `src/unnamed/part_000` carries the
full Route Normalizer (`cleanRoutePath` together with the filter/map/sort
chain in `collectRoutes`) and the HTML/JSON artifact writers; the first
variant in `src/src/index.ts` carries the json/js `writeRoutes` writer and
the generated dynamic GET endpoint.  Both are embedded below.

JavaScript strings are modelled through the character sequence underlying
the Lean `String` type; `jsStartsWith`, `jsEndsWith`, `jsDropRight` and
`jsLe` model `String.prototype.startsWith`, `String.prototype.endsWith`,
suffix removal via `String.prototype.replace` with an end-anchored pattern,
and the default `Array.prototype.sort` comparator (lexicographic string
order), respectively.
-/

namespace PagesTree

/-- Model of the JavaScript `s.startsWith(p)`: the characters of `p` form a
leading segment of the characters of `s`. -/
def jsStartsWith (s p : String) : Bool :=
  p.data.isPrefixOf s.data

/-- Model of the JavaScript `s.endsWith(p)`: the characters of `p` form a
trailing segment of the characters of `s`. -/
def jsEndsWith (s p : String) : Bool :=
  p.data.isSuffixOf s.data

/-- Remove the last `n` characters of `s`; this is what
`s.replace(/suffix$/, "")` does when the matched suffix has `n`
characters. -/
def jsDropRight (s : String) (n : Nat) : String :=
  String.mk (s.data.take (s.data.length - n))

/-- Lexicographic comparison of two character sequences by code point;
this is the order the default `Array.prototype.sort()` comparator induces
on strings. -/
def lexLe : List Char → List Char → Bool
  | [], _ => true
  | _ :: _, [] => false
  | a :: as, b :: bs =>
    if a.toNat < b.toNat then true
    else if b.toNat < a.toNat then false
    else lexLe as bs

/-- The default `Array.prototype.sort()` comparator on strings. -/
def jsLe (a b : String) : Bool :=
  lexLe a.data b.data

/-- `jsLe` as a binary relation, for use with the sorting library. -/
abbrev jsLeRel (a b : String) : Prop :=
  jsLe a b = true

/-- The output data model: the route collection holds the ordered sequence
`appRoutes` of canonical application route paths. -/
structure RouteCollection where
  appRoutes : List String
deriving Repr, DecidableEq

/-- `cleanRoutePath` from `PagesTreeWebpackPlugin` in `src/unnamed/part_000`
(lines 71-77).  The source special-cases the root key and otherwise runs
`route.replace(/\/(page|route)$/, "")`; the pattern is end-anchored and a
string cannot end in both alternatives at once, so the replace removes a
trailing five-character `/page` or six-character `/route` when present and
leaves the string unchanged otherwise. -/
def cleanRoutePath (route : String) : String :=
  if route = "/page" then "/"
  else if jsEndsWith route "/page" then jsDropRight route 5
  else if jsEndsWith route "/route" then jsDropRight route 6
  else route

/-- The normalization chain applied to the manifest key list inside
`collectRoutes` of `src/unnamed/part_000` (lines 95-98):
`Object.keys(appRoutesManifest).filter((route) =>
!route.startsWith("/api/")).map((route) =>
this.cleanRoutePath(route)).sort()`.  The trailing `.sort()` is a stable
sort under the default string comparator; it is modelled by a stable
sorting algorithm under `jsLeRel`. -/
def normalizeKeys (keys : List String) : List String :=
  List.insertionSort jsLeRel
    ((keys.filter (fun route => !(jsStartsWith route "/api/"))).map
      cleanRoutePath)

/-- `collectRoutes` of `src/unnamed/part_000` (lines 79-109).  The argument
models the state of `server/app-paths-manifest.json`: `none` when
`fs.existsSync` is false, in which case `routes.appRoutes` keeps its initial
empty value, and `some keys` for the key list of the parsed manifest
object. -/
def collectRoutes (manifest : Option (List String)) : RouteCollection :=
  match manifest with
  | none => { appRoutes := [] }
  | some keys => { appRoutes := normalizeKeys keys }

/-- Output path of `writeHTMLFile` in `src/unnamed/part_000`. -/
def htmlOutputPath : String := ".next/static/pages-tree/index.html"

/-- Output path of `writeJSONFile` in `src/unnamed/part_000`. -/
def jsonOutputPath : String := ".next/static/pages-tree/routes.json"

/-- Observable outcome of the post-collection part of `apply`: which files
were written, and whether the no-routes warning branch ran. -/
structure BuildStep where
  writtenFiles : List String
  warnedNoRoutes : Bool
deriving Repr, DecidableEq

/-- The branch of `apply` in `src/unnamed/part_000` (lines 58-64) that runs
after `collectRoutes` returns: when `routes.appRoutes.length > 0` it calls
`writeHTMLFile` then `writeJSONFile` and logs success, otherwise it writes
nothing and logs the warning about no routes found in manifests. -/
def applyAfterCollect (routes : RouteCollection) : BuildStep :=
  if routes.appRoutes.length > 0 then
    { writtenFiles := [htmlOutputPath, jsonOutputPath], warnedNoRoutes := false }
  else
    { writtenFiles := [], warnedNoRoutes := true }

/-- One hexadecimal digit, used for the `\u00XX` escapes that
`JSON.stringify` emits for control characters. -/
def hexDigit (n : Nat) : Char :=
  if n < 10 then Char.ofNat (48 + n) else Char.ofNat (87 + n)

/-- How `JSON.stringify` renders one character inside a string literal:
quote, backslash and the common control characters get two-character
escapes, the remaining control characters get a `\u00XX` escape, everything
else is emitted as itself. -/
def jsonEscapeChar (c : Char) : String :=
  if c.toNat = 34 then "\\\""
  else if c.toNat = 92 then "\\\\"
  else if c.toNat = 8 then "\\b"
  else if c.toNat = 9 then "\\t"
  else if c.toNat = 10 then "\\n"
  else if c.toNat = 12 then "\\f"
  else if c.toNat = 13 then "\\r"
  else if c.toNat < 32 then
    "\\u00" ++ String.mk [hexDigit (c.toNat / 16), hexDigit (c.toNat % 16)]
  else String.singleton c

/-- A JSON string literal for `s`, as produced by `JSON.stringify`. -/
def jsonQuote (s : String) : String :=
  "\"" ++ (s.data.map jsonEscapeChar).foldl (· ++ ·) "" ++ "\""

/-- `JSON.stringify` of an array of strings at nesting depth one with
indent argument 2: the empty array prints as `[]`, a non-empty one prints
one four-space-indented quoted element per line with the closing bracket
indented two spaces. -/
def prettyStringArray (xs : List String) : String :=
  match xs with
  | [] => "[]"
  | _ =>
    "[\n" ++ String.intercalate ",\n" (xs.map (fun x => "    " ++ jsonQuote x))
      ++ "\n  ]"

/-- `JSON.stringify(routes, null, 2)` applied to the routes object
(a single-property object holding `appRoutes`), as passed to
`fs.writeFileSync` by `writeJSONFile` in `src/unnamed/part_000` (line 118)
and by `writeRoutes` in `src/src/index.ts` (line 124). -/
def stringifyRoutesPretty (routes : RouteCollection) : String :=
  "\x7b\n  " ++ jsonQuote "appRoutes" ++ ": "
    ++ prettyStringArray routes.appRoutes ++ "\n\x7d"

/-- The generic shape of a pretty-printed (indent 2) JSON object whose
top-level properties are exactly the named fields, each field value already
serialized at depth one.  This follows the stated output contract, to be
compared with what the writer emits. -/
def stringifyTopLevel (fields : List (String × String)) : String :=
  match fields with
  | [] => "\x7b\x7d"
  | _ =>
    "\x7b\n"
      ++ String.intercalate ",\n"
        (fields.map (fun kv => "  " ++ jsonQuote kv.1 ++ ": " ++ kv.2))
      ++ "\n\x7d"

/-- Compact `JSON.stringify` of the routes object, which is what
`Response.json(...)` sends on the wire. -/
def stringifyRoutesCompact (routes : RouteCollection) : String :=
  "\x7b" ++ jsonQuote "appRoutes" ++ ":["
    ++ String.intercalate "," (routes.appRoutes.map jsonQuote) ++ "]\x7d"

/-- The `format` plugin option of the first variant in `src/src/index.ts`:
`"json"` or `"js"`, defaulting to `"json"`. -/
inductive RouteFormat where
  | json
  | js
deriving Repr, DecidableEq

/-- The file extension corresponding to a `RouteFormat`. -/
def formatExt : RouteFormat → String
  | .json => "json"
  | .js => "js"

namespace JsonPlugin

/-- `collectRoutes` of the first plugin variant in `src/src/index.ts`
(lines 84-114): `Object.keys(appRoutesManifest).filter((route) =>
!route.startsWith("/api/")).filter((route) =>
!route.startsWith("/pages-tree"))`, with no path cleaning and no sorting.
`none` models an absent manifest file, for which `routes.appRoutes` keeps
its initial empty value. -/
def collectRoutes (manifest : Option (List String)) : RouteCollection :=
  match manifest with
  | none => { appRoutes := [] }
  | some keys =>
    { appRoutes :=
        (keys.filter (fun route => !(jsStartsWith route "/api/"))).filter
          (fun route => !(jsStartsWith route "/pages-tree")) }

/-- Content written by `writeRoutes` in `src/src/index.ts` (lines 116-137)
to `routes.json` respectively `routes.js` under the configured output
directory: either `JSON.stringify(routes, null, 2)` directly, or the
template-literal module wrapping that same serialization as a named and a
default export. -/
def writeRoutesContent (format : RouteFormat) (routes : RouteCollection) :
    String :=
  match format with
  | .json => stringifyRoutesPretty routes
  | .js =>
    "\n          export const routes = " ++ stringifyRoutesPretty routes
      ++ ";\n          export default routes;\n        "

/-- Path of the routes artifact written by `writeRoutes` under the default
`outputPath` configuration. -/
def routesFilePath (format : RouteFormat) : String :=
  ".next/static/pages-tree/routes." ++ formatExt format

/-- Path of the endpoint source emitted by `generateApiRoute`. -/
def apiRoutePath : String := "app/pages-tree/route.ts"

/-- The branch of `apply` in `src/src/index.ts` (lines 71-77) that runs
after `collectRoutes` returns: when `routes.appRoutes.length > 0` it calls
`writeRoutes` then `generateApiRoute` and logs success, otherwise it writes
nothing and logs the warning about no routes found in manifests. -/
def applyAfterCollect (format : RouteFormat) (routes : RouteCollection) :
    BuildStep :=
  if routes.appRoutes.length > 0 then
    { writtenFiles := [routesFilePath format, apiRoutePath]
      warnedNoRoutes := false }
  else
    { writtenFiles := [], warnedNoRoutes := true }

/-- Disk state seen by the generated GET handler at request time: the
routes artifact is missing (`fs.stat` rejects), present but failing to read
or parse (the catch branch), or present with a parsed routes object. -/
inductive ArtifactRead where
  | absent
  | unreadable
  | present (routes : RouteCollection)
deriving Repr, DecidableEq

/-- An HTTP response as produced by `Response.json`. -/
structure HttpResponse where
  status : Nat
  body : String
deriving Repr, DecidableEq

/-- The request handler emitted by `generateApiRoute` in `src/src/index.ts`
(lines 144-174).  When the artifact file exists it responds
`Response.json(routes)` with the parsed contents; when `fs.stat` rejects it
responds `Response.json(\x7b appRoutes: [] \x7d)`; both use the default
status 200.  A read or parse failure is caught and answered with a JSON
error body at status 500. -/
def generatedGet : ArtifactRead → HttpResponse
  | .present routes => { status := 200, body := stringifyRoutesCompact routes }
  | .absent =>
    { status := 200, body := stringifyRoutesCompact { appRoutes := [] } }
  | .unreadable =>
    { status := 500, body := "\x7b\"error\":\"Failed to read routes\"\x7d" }

end JsonPlugin

/-! ### Order-theoretic facts about the sort comparator -/

theorem lexLe_cons_iff {a b : Char} {as bs : List Char} :
    lexLe (a :: as) (b :: bs) = true ↔
      a.toNat < b.toNat ∨ (a.toNat = b.toNat ∧ lexLe as bs = true) := by
  by_cases h1 : a.toNat < b.toNat
  · simp [lexLe, h1]
  · by_cases h2 : b.toNat < a.toNat
    · simp only [lexLe, if_neg h1, if_pos h2]
      constructor
      · intro hf; exact absurd hf (by simp)
      · rintro (hc | ⟨he, -⟩)
        · omega
        · omega
    · have he : a.toNat = b.toNat := by omega
      simp [lexLe, h1, h2, he]

theorem lexLe_total : ∀ as bs : List Char,
    lexLe as bs = true ∨ lexLe bs as = true
  | [], _ => Or.inl rfl
  | _ :: _, [] => Or.inr rfl
  | a :: as, b :: bs => by
    rw [lexLe_cons_iff, lexLe_cons_iff]
    rcases Nat.lt_trichotomy a.toNat b.toNat with h | h | h
    · exact Or.inl (Or.inl h)
    · rcases lexLe_total as bs with ih | ih
      · exact Or.inl (Or.inr ⟨h, ih⟩)
      · exact Or.inr (Or.inr ⟨h.symm, ih⟩)
    · exact Or.inr (Or.inl h)

theorem lexLe_trans : ∀ as bs cs : List Char, lexLe as bs = true →
    lexLe bs cs = true → lexLe as cs = true
  | [], _, _, _, _ => rfl
  | _ :: _, [], _, h1, _ => by simp [lexLe] at h1
  | _ :: _, _ :: _, [], _, h2 => by simp [lexLe] at h2
  | a :: as, b :: bs, c :: cs, h1, h2 => by
    rw [lexLe_cons_iff] at h1 h2 ⊢
    rcases h1 with h1 | ⟨h1e, h1r⟩ <;> rcases h2 with h2 | ⟨h2e, h2r⟩
    · exact Or.inl (by omega)
    · exact Or.inl (by omega)
    · exact Or.inl (by omega)
    · exact Or.inr ⟨by omega, lexLe_trans as bs cs h1r h2r⟩

theorem lexLe_antisymm : ∀ as bs : List Char, lexLe as bs = true →
    lexLe bs as = true → as = bs
  | [], [], _, _ => rfl
  | [], _ :: _, _, h2 => by simp [lexLe] at h2
  | _ :: _, [], h1, _ => by simp [lexLe] at h1
  | a :: as, b :: bs, h1, h2 => by
    rw [lexLe_cons_iff] at h1 h2
    rcases h1 with h1 | ⟨h1e, h1r⟩
    · rcases h2 with h2 | ⟨h2e, -⟩
      · omega
      · omega
    · rcases h2 with h2 | ⟨-, h2r⟩
      · omega
      · have hab : a = b := Char.eq_of_val_eq (UInt32.ext h1e)
        rw [hab, lexLe_antisymm as bs h1r h2r]

instance : IsTotal String jsLeRel :=
  ⟨fun a b => lexLe_total a.data b.data⟩

instance : IsTrans String jsLeRel :=
  ⟨fun a b c h1 h2 => lexLe_trans a.data b.data c.data h1 h2⟩

instance : IsAntisymm String jsLeRel :=
  ⟨fun a b h1 h2 => String.ext (lexLe_antisymm a.data b.data h1 h2)⟩

/-! ### Facts about the string model -/

/-- A heading segment of a truncated string is a heading segment of the
string itself. -/
theorem jsStartsWith_of_jsDropRight (s p : String) (n : Nat)
    (h : jsStartsWith (jsDropRight s n) p = true) :
    jsStartsWith s p = true := by
  unfold jsStartsWith at h ⊢
  unfold jsDropRight at h
  rw [ List.isPrefixOf_iff_prefix] at h ⊢
  exact h.trans ⟨s.data.drop (s.data.length - n), List.take_append_drop _ _⟩

/-- `cleanRoutePath` cannot manufacture a key in the `/api/` namespace:
its result is either `"/"` or a truncation of its argument. -/
theorem cleanRoutePath_not_api (route : String)
    (h : jsStartsWith route "/api/" = false) :
    jsStartsWith (cleanRoutePath route) "/api/" = false := by
  unfold cleanRoutePath
  split_ifs with h1 h2 h3
  · decide
  · cases hb : jsStartsWith (jsDropRight route 5) "/api/"
    · rfl
    · exact absurd (jsStartsWith_of_jsDropRight route _ 5 hb) (by simp [h])
  · cases hb : jsStartsWith (jsDropRight route 6) "/api/"
    · rfl
    · exact absurd (jsStartsWith_of_jsDropRight route _ 6 hb) (by simp [h])
  · exact h

/-- Every element of a normalized key list is outside the `/api/`
namespace. -/
theorem normalizeKeys_not_api {keys : List String} {x : String}
    (hx : x ∈ normalizeKeys keys) : jsStartsWith x "/api/" = false := by
  unfold normalizeKeys at hx
  rw [List.mem_insertionSort] at hx
  rcases List.mem_map.mp hx with ⟨r, hr, hrx⟩
  rcases List.mem_filter.mp hr with ⟨-, hrf⟩
  rw [← hrx]
  simp only [Bool.not_eq_true'] at hrf
  exact cleanRoutePath_not_api r hrf

/-- Removing the length of a trailing segment and appending the segment
back reconstructs the original string. -/
theorem jsDropRight_append_of_jsEndsWith (s t : String) (n : Nat)
    (hn : t.data.length = n) (h : jsEndsWith s t = true) :
    jsDropRight s n ++ t = s := by
  subst hn
  unfold jsEndsWith at h
  rw [List.isSuffixOf_iff_suffix] at h
  obtain ⟨u, hu⟩ := h
  apply String.ext
  rw [String.data_append]
  unfold jsDropRight
  show s.data.take (s.data.length - t.data.length) ++ t.data = s.data
  rw [← hu, show (u ++ t.data).length - t.data.length = u.length by
    simp [List.length_append]]
  rw [List.take_left]

/-- A string cannot end in `/page` and in `/route` at once. -/
theorem not_endsWith_page_of_endsWith_route (s : String)
    (h : jsEndsWith s "/route" = true) : jsEndsWith s "/page" = false := by
  cases hb : jsEndsWith s "/page"
  · rfl
  · exfalso
    unfold jsEndsWith at h hb
    rw [List.isSuffixOf_iff_suffix] at h hb
    rcases List.suffix_or_suffix_of_suffix hb h with hc | hc
    · exact absurd hc (by decide)
    · exact absurd hc (by decide)

/-- On keys carrying no trailing marker segment, `cleanRoutePath` is the
identity. -/
theorem cleanRoutePath_eq_self (route : String)
    (h1 : jsEndsWith route "/page" = false)
    (h2 : jsEndsWith route "/route" = false) : cleanRoutePath route = route := by
  have hne : route ≠ "/page" := by
    intro e
    subst e
    exact absurd h1 (by decide)
  unfold cleanRoutePath
  rw [if_neg hne, if_neg (by simp [h1]), if_neg (by simp [h2])]

/-! ### Claim theorems -/

/-- C1: for every manifest key set given to route collection, every key
that starts with the `/api/` marker is absent from the `appRoutes` sequence
of the resulting `RouteCollection`; this holds in the normalizing variant
(`src/unnamed/part_000`) and in the filter-only variant
(`src/src/index.ts`, first plugin class) alike. -/
theorem collectRoutes_excludes_api_keys (manifest : Option (List String))
    (k : String) (hk : jsStartsWith k "/api/" = true) :
    k ∉ (collectRoutes manifest).appRoutes ∧
      k ∉ (JsonPlugin.collectRoutes manifest).appRoutes := by
  constructor
  · intro hmem
    cases manifest with
    | none => exact absurd hmem (List.not_mem_nil k)
    | some keys =>
      have hfalse : jsStartsWith k "/api/" = false :=
        @normalizeKeys_not_api keys k hmem
      rw [hk] at hfalse
      exact Bool.noConfusion hfalse
  · intro hmem
    cases manifest with
    | none => exact absurd hmem (List.not_mem_nil k)
    | some keys =>
      rcases List.mem_filter.mp (List.mem_filter.mp hmem).1 with ⟨-, hkf⟩
      rw [hk] at hkf
      simp at hkf

/-- Witness for C1 at a concrete manifest key set. -/
theorem collectRoutes_excludes_api_keys_witness :
    jsStartsWith "/api/users/route" "/api/" = true ∧
      "/api/users/route" ∉
        (collectRoutes (some ["/api/users/route", "/about/page"])).appRoutes ∧
      "/api/users/route" ∉
        (JsonPlugin.collectRoutes
          (some ["/api/users/route", "/about/page"])).appRoutes :=
  ⟨by decide,
    (collectRoutes_excludes_api_keys (some ["/api/users/route", "/about/page"])
      "/api/users/route" (by decide)).1,
    (collectRoutes_excludes_api_keys (some ["/api/users/route", "/about/page"])
      "/api/users/route" (by decide)).2⟩

/-- C2 counterexample: the key `"/page"` ends in the trailing marker
segment `/page`, yet the code does not return that key with the marker
removed — the string with the trailing `/page` removed is the unique `r`
with `r ++ "/page"` equal to the key (here the empty string), while
`cleanRoutePath "/page"` is `"/"`. -/
theorem cleanRoutePath_root_marker_counterexample :
    jsEndsWith "/page" "/page" = true ∧
      cleanRoutePath "/page" ++ "/page" ≠ "/page" := by decide

/-- C2 (amended): for every manifest key other than the root page marker
`"/page"` that ends in a trailing `/page` or `/route` segment,
`cleanRoutePath` returns the key with exactly that trailing marker
removed — appending the marker back reconstructs the key, so every other
part of the path is unchanged. -/
theorem cleanRoutePath_strips_trailing_marker (route : String)
    (hroot : route ≠ "/page") :
    (jsEndsWith route "/page" = true →
      cleanRoutePath route ++ "/page" = route) ∧
    (jsEndsWith route "/route" = true →
      cleanRoutePath route ++ "/route" = route) := by
  constructor
  · intro h
    have hclean : cleanRoutePath route = jsDropRight route 5 := by
      unfold cleanRoutePath
      rw [if_neg hroot, if_pos h]
    rw [hclean]
    exact jsDropRight_append_of_jsEndsWith route "/page" 5 rfl h
  · intro h
    have hp : jsEndsWith route "/page" = false :=
      not_endsWith_page_of_endsWith_route route h
    have hclean : cleanRoutePath route = jsDropRight route 6 := by
      unfold cleanRoutePath
      rw [if_neg hroot, if_neg (by simp [hp]), if_pos h]
    rw [hclean]
    exact jsDropRight_append_of_jsEndsWith route "/route" 6 rfl h

/-- Witness for the amended C2 at concrete page and route-handler keys. -/
theorem cleanRoutePath_strips_trailing_marker_witness :
    cleanRoutePath "/blog/[slug]/page" ++ "/page" = "/blog/[slug]/page" ∧
      cleanRoutePath "/users/route" ++ "/route" = "/users/route" :=
  ⟨(cleanRoutePath_strips_trailing_marker "/blog/[slug]/page" (by decide)).1
      (by decide),
    (cleanRoutePath_strips_trailing_marker "/users/route" (by decide)).2
      (by decide)⟩

/-- C3: the root page marker key `"/page"` normalizes to exactly `"/"`,
never to the empty string. -/
theorem cleanRoutePath_root_page :
    cleanRoutePath "/page" = "/" ∧ cleanRoutePath "/page" ≠ "" := by decide

/-- C4 counterexample: the two distinct raw keys `/about/page` and
`/about/route` normalize to the same canonical path `/about`, and the
output `appRoutes` then contains that canonical path twice — the sequence
has a duplicate element. -/
theorem collectRoutes_duplicate_counterexample :
    (collectRoutes (some ["/about/page", "/about/route"])).appRoutes
        = ["/about", "/about"] ∧
      ¬ (collectRoutes
          (some ["/about/page", "/about/route"])).appRoutes.Nodup := by decide

/-- C4 (amended): the pipeline performs no deduplication — `appRoutes`
contains each canonical path exactly as many times as there are raw keys
that survive the `/api/` exclusion and normalize to it. -/
theorem collectRoutes_count_eq (keys : List String) (p : String) :
    (collectRoutes (some keys)).appRoutes.count p =
      ((keys.filter (fun route => !(jsStartsWith route "/api/"))).map
        cleanRoutePath).count p := by
  show (normalizeKeys keys).count p = _
  exact (List.perm_insertionSort jsLeRel _).count_eq p

/-- C5 counterexample: normalization is not idempotent — on the key list
`["/page/page"]` one pass yields `["/page"]`, and re-normalizing that
output yields `["/"]`. -/
theorem normalizeKeys_not_idempotent :
    normalizeKeys ["/page/page"] = ["/page"] ∧
      normalizeKeys (normalizeKeys ["/page/page"]) = ["/"] ∧
      normalizeKeys (normalizeKeys ["/page/page"]) ≠
        normalizeKeys ["/page/page"] := by decide

/-- C5 (amended): normalization is idempotent on every key list whose
normalized output contains no element that itself still ends in a `/page`
or `/route` marker segment; keys such as `/page/page`, whose canonical
form retains a marker suffix, are exactly the failures. -/
theorem normalizeKeys_idempotent_of_no_marker (keys : List String)
    (h : ∀ x ∈ normalizeKeys keys,
      jsEndsWith x "/page" = false ∧ jsEndsWith x "/route" = false) :
    normalizeKeys (normalizeKeys keys) = normalizeKeys keys := by
  have hfilter : (normalizeKeys keys).filter
      (fun route => !(jsStartsWith route "/api/")) = normalizeKeys keys := by
    rw [List.filter_eq_self]
    intro a ha
    rw [normalizeKeys_not_api ha]
    rfl
  have hmap : (normalizeKeys keys).map cleanRoutePath = normalizeKeys keys := by
    rw [List.map_congr_left
      (fun a ha => cleanRoutePath_eq_self a (h a ha).1 (h a ha).2),
      List.map_id']
  show List.insertionSort jsLeRel
      (((normalizeKeys keys).filter
        (fun route => !(jsStartsWith route "/api/"))).map cleanRoutePath)
      = normalizeKeys keys
  rw [hfilter, hmap]
  exact List.Sorted.insertionSort_eq (List.sorted_insertionSort jsLeRel _)

/-- Witness for the amended C5 at a concrete key list. -/
theorem normalizeKeys_idempotent_witness :
    normalizeKeys (normalizeKeys ["/contact/page", "/about/page"]) =
      normalizeKeys ["/contact/page", "/about/page"] :=
  normalizeKeys_idempotent_of_no_marker ["/contact/page", "/about/page"]
    (by decide)

/-- C6: normalization is order-deterministic — two manifest key lists that
are permutations of each other produce the same `RouteCollection`, and
hence byte-identical serialized output. -/
theorem collectRoutes_perm_invariant (keys1 keys2 : List String)
    (h : keys1.Perm keys2) :
    collectRoutes (some keys1) = collectRoutes (some keys2) ∧
      stringifyRoutesPretty (collectRoutes (some keys1)) =
        stringifyRoutesPretty (collectRoutes (some keys2)) := by
  have hn : normalizeKeys keys1 = normalizeKeys keys2 := by
    apply List.eq_of_perm_of_sorted (r := jsLeRel)
    · exact (List.perm_insertionSort _ _).trans
        (((h.filter _).map _).trans (List.perm_insertionSort _ _).symm)
    · exact List.sorted_insertionSort _ _
    · exact List.sorted_insertionSort _ _
  have he : collectRoutes (some keys1) = collectRoutes (some keys2) := by
    show RouteCollection.mk (normalizeKeys keys1)
        = RouteCollection.mk (normalizeKeys keys2)
    rw [hn]
  exact ⟨he, by rw [he]⟩

/-- Witness for C6 at two concrete reorderings of one key set. -/
theorem collectRoutes_perm_invariant_witness :
    collectRoutes (some ["/b/page", "/a/page"]) =
      collectRoutes (some ["/a/page", "/b/page"]) :=
  (collectRoutes_perm_invariant ["/b/page", "/a/page"]
    ["/a/page", "/b/page"] (by decide)).1

/-- C7: whenever the collected `appRoutes` is empty, both `apply`
variants skip artifact generation entirely — no HTML page, routes file or
endpoint source is written — and take the warning branch instead of
failing. -/
theorem apply_skips_artifacts_when_no_routes (routes : RouteCollection)
    (format : RouteFormat) (h : routes.appRoutes = []) :
    applyAfterCollect routes =
        { writtenFiles := [], warnedNoRoutes := true } ∧
      JsonPlugin.applyAfterCollect format routes =
        { writtenFiles := [], warnedNoRoutes := true } := by
  unfold applyAfterCollect JsonPlugin.applyAfterCollect
  rw [h]
  exact ⟨by simp, by simp⟩

/-- Witness for C7 at the empty route collection. -/
theorem apply_skips_artifacts_when_no_routes_witness :
    applyAfterCollect { appRoutes := [] } =
        { writtenFiles := [], warnedNoRoutes := true } ∧
      JsonPlugin.applyAfterCollect RouteFormat.json { appRoutes := [] } =
        { writtenFiles := [], warnedNoRoutes := true } :=
  apply_skips_artifacts_when_no_routes { appRoutes := [] } RouteFormat.json rfl

/-- C8: for every `RouteCollection`, the written routes artifact is the
pretty-printed serialization of an object whose top-level fields are
exactly the single field `appRoutes`; the `.js` module variant wraps that
same serialization as a named and a default export. -/
theorem writeRoutes_shape (routes : RouteCollection) :
    JsonPlugin.writeRoutesContent RouteFormat.json routes =
        stringifyTopLevel
          [("appRoutes", prettyStringArray routes.appRoutes)] ∧
      JsonPlugin.writeRoutesContent RouteFormat.js routes =
        "\n          export const routes = "
          ++ stringifyTopLevel
            [("appRoutes", prettyStringArray routes.appRoutes)]
          ++ ";\n          export default routes;\n        " := by
  have hjson : stringifyRoutesPretty routes =
      stringifyTopLevel [("appRoutes", prettyStringArray routes.appRoutes)] := by
    show "\x7b\n  " ++ jsonQuote "appRoutes" ++ ": "
        ++ prettyStringArray routes.appRoutes ++ "\n\x7d"
      = "\x7b\n"
        ++ ("  " ++ jsonQuote "appRoutes" ++ ": "
          ++ prettyStringArray routes.appRoutes)
        ++ "\n\x7d"
    rw [show ("\x7b\n  " : String) = "\x7b\n" ++ "  " from rfl]
    apply String.ext
    simp [String.data_append, List.append_assoc]
  have hjs : JsonPlugin.writeRoutesContent RouteFormat.js routes =
      "\n          export const routes = "
        ++ stringifyTopLevel
          [("appRoutes", prettyStringArray routes.appRoutes)]
        ++ ";\n          export default routes;\n        " := by
    show "\n          export const routes = "
        ++ stringifyRoutesPretty routes
        ++ ";\n          export default routes;\n        " = _
    rw [hjson]
  exact ⟨hjson, hjs⟩

/-- C9: when the persisted routes artifact does not exist at request time,
the generated GET handler responds with the empty collection body and the
success status 200, not the error status. -/
theorem generatedGet_absent_artifact :
    JsonPlugin.generatedGet JsonPlugin.ArtifactRead.absent =
        { status := 200,
          body := stringifyRoutesCompact { appRoutes := [] } } ∧
      (JsonPlugin.generatedGet JsonPlugin.ArtifactRead.absent).status ≠ 500 :=
  ⟨rfl, by decide⟩

/-- C10: the root route-handler marker key `"/route"` normalizes to the
empty string, not to `"/"` — the root special case applies only to the key
`"/page"`. -/
theorem cleanRoutePath_root_route :
    cleanRoutePath "/route" = "" ∧ cleanRoutePath "/route" ≠ "/" := by decide

end PagesTree
